import Mathlib

/-!
# Verification of the LACT daemon core

Shallow embedding of the fan-curve control engine
(`src/lact-daemon/src/server/gpu_controller/common/fan_control.rs`) and of the
event-orchestration tasks (`src/lact-daemon/src/lib.rs`), with theorems
settling the specification claims.

`f32` arithmetic of the source is modelled exactly over `ℚ`; the `as`
casts of Rust (float to integer, saturating, truncating toward zero) are
modelled by explicit saturating truncation functions.
-/

namespace Lact

/-- Truncation of a rational toward zero, as Rust float-to-integer `as`
casts truncate. -/
def rat_trunc (q : ℚ) : ℤ :=
  if 0 ≤ q then ⌊q⌋ else ⌈q⌉

/-- Model of `expr as u8` on a (finite) float value: saturating truncation
toward zero into `0..=255`. -/
def f32_to_u8 (q : ℚ) : ℕ :=
  (max 0 (min (rat_trunc q) 255)).toNat

/-- Model of `expr as i32` on a (finite) float value: saturating truncation
toward zero into the `i32` range. -/
def f32_to_i32 (q : ℚ) : ℤ :=
  max (-(2 ^ 31)) (min (rat_trunc q) (2 ^ 31 - 1))

/-- Model of `expr as u64` on a (finite) float value: saturating truncation
toward zero into the `u64` range. -/
def f32_to_u64 (q : ℚ) : ℕ :=
  (max 0 (min (rat_trunc q) (2 ^ 64 - 1))).toNat

/-- Model of `amdgpu_sysfs::hw_mon::Temperature`: a reading with optional current,
critical and critical-hysteresis temperatures (all `f32` in the source). -/
structure Temperature where
  current : Option ℚ
  crit : Option ℚ
  crit_hyst : Option ℚ
deriving Repr, DecidableEq

/-- Model of `lact_schema::config::FanCurve`: a `BTreeMap<i32, f32>` from temperature
to fan-speed ratio, modelled as its ascending-key entry list. -/
abbrev FanCurve := List (ℤ × ℚ)

/-- Keys strictly ascending: the invariant of the `BTreeMap` entry list. -/
def CurveSorted (curve : FanCurve) : Prop :=
  curve.Pairwise (fun a b => a.1 < b.1)

instance (curve : FanCurve) : Decidable (CurveSorted curve) :=
  List.instDecidablePairwise curve

/-- Model of `self.0.range(..current).next_back()`: the last entry with key strictly
below `current` (the greatest such key, under `CurveSorted`). -/
def maybe_lower (curve : FanCurve) (current : ℤ) : Option (ℤ × ℚ) :=
  (curve.filter (fun p => p.1 < current)).getLast?

/-- Model of `self.0.range(current..).next()`: the first entry with key at or above
`current` (the least such key, under `CurveSorted`). -/
def maybe_higher (curve : FanCurve) (current : ℤ) : Option (ℤ × ℚ) :=
  (curve.filter (fun p => current ≤ p.1)).head?

/-- The lower search as the specification words it ("the greatest curve key
less than OR EQUAL to current", "a point exactly equal to current resolves
via the at-or-below search"): the last entry with key at or below `current`.
Kept separate from `maybe_lower`, which embeds the source's
`range(..current)` (strictly below), to compare the two. -/
def maybe_lower_spec (curve : FanCurve) (current : ℤ) : Option (ℤ × ℚ) :=
  (curve.filter (fun p => p.1 ≤ current)).getLast?

/-- The critical-clamp test `temp.crit.filter(|crit| current > *crit).is_some()`. -/
def crit_clamp (crit : Option ℚ) (current : ℚ) : Bool :=
  match crit with
  | some c => current > c
  | none => false

/-- Model of `FanCurveExt::pwm_at_temp`. Here `none` models the two panics of the source
(`expect("No current temp")` and the empty-curve `panic!`); `some b` is the
returned duty byte. -/
def pwm_at_temp (curve : FanCurve) (temp : Temperature) : Option ℕ :=
  match temp.current with
  | none => none
  | some current =>
    if crit_clamp temp.crit current then
      some 255
    else
      let currentInt : ℤ := f32_to_i32 current
      match maybe_lower curve currentInt, maybe_higher curve currentInt with
      | some (lower_temp, lower_speed), some (higher_temp, higher_speed) =>
        let speed_ratio : ℚ :=
          ((currentInt : ℚ) - (lower_temp : ℚ)) / ((higher_temp : ℚ) - (lower_temp : ℚ))
        some (f32_to_u8 (255 * (lower_speed + (higher_speed - lower_speed) * speed_ratio)))
      | some (_, lower_speed), none => some (f32_to_u8 (255 * lower_speed))
      | none, some (_, higher_speed) => some (f32_to_u8 (255 * higher_speed))
      | none, none => none

/-- Model of `amdgpu_sysfs::gpu_handle::fan_control::FanCurveRanges`: the two inclusive
ranges (`RangeInclusive<i32>` for temperature, `RangeInclusive<u8>` for speed
percent) bounding every hardware curve point. Each pair is
(`start()`, `end()`). -/
structure FanCurveRanges where
  temperature_range : ℤ × ℤ
  speed_range : ℕ × ℕ
deriving Repr, DecidableEq

/-- Model of `amdgpu_sysfs::gpu_handle::fan_control::FanCurve` (aliased `PmfwCurve` in
the source): fixed-cardinality `(i32, u8)` points plus optional allowed
ranges. -/
structure PmfwCurve where
  points : List (ℤ × ℕ)
  allowed_ranges : Option FanCurveRanges
deriving Repr, DecidableEq

/-- The errors `into_pmfw_curve` produces, each carrying exactly the values
its `anyhow!`/`bail!` message in the source names. -/
inductive PmfwError where
  /-- Error "The GPU only supports .. curve points, given .." -/
  | countMismatch (supported given : ℕ)
  /-- Error "The GPU does not allow fan curve modifications" -/
  | noRanges
  /-- Error "Temperature .. is outside of the allowed range .. to .." -/
  | tempOutOfRange (temp min_temp max_temp : ℤ)
  /-- Error "Speed ..% is outside of the allowed range ..% to ..%" -/
  | speedOutOfRange (custom_percent min_percent max_percent : ℕ)
deriving Repr, DecidableEq

/-- The per-point closure inside `into_pmfw_curve`. -/
def convert_point (min_temp max_temp : ℤ) (min_percent max_percent : ℕ)
    (p : ℤ × ℚ) : Except PmfwError (ℤ × ℕ) :=
  let custom_percent := f32_to_u8 (p.2 * 100)
  if ¬ (min_temp ≤ p.1 ∧ p.1 ≤ max_temp) then
    .error (.tempOutOfRange p.1 min_temp max_temp)
  else if ¬ (min_percent ≤ custom_percent ∧ custom_percent ≤ max_percent) then
    .error (.speedOutOfRange custom_percent min_percent max_percent)
  else
    .ok (p.1, custom_percent)

/-- Model of `.map(..).collect::<anyhow::Result<_>>()`: apply the fallible per-point
conversion to every point in order, stopping at the first error. -/
def collect_points (f : ℤ × ℚ → Except PmfwError (ℤ × ℕ)) :
    List (ℤ × ℚ) → Except PmfwError (List (ℤ × ℕ))
  | [] => .ok []
  | p :: ps =>
    match f p with
    | .error e => .error e
    | .ok q =>
      match collect_points f ps with
      | .error e => .error e
      | .ok qs => .ok (q :: qs)

/-- Model of `FanCurveExt::into_pmfw_curve`. -/
def into_pmfw_curve (curve : FanCurve) (current_pmfw_curve : PmfwCurve) :
    Except PmfwError PmfwCurve :=
  if current_pmfw_curve.points.length ≠ curve.length then
    .error (.countMismatch current_pmfw_curve.points.length curve.length)
  else
    match current_pmfw_curve.allowed_ranges with
    | none => .error .noRanges
    | some allowed_ranges =>
      let min_percent := allowed_ranges.speed_range.1
      let max_percent := allowed_ranges.speed_range.2
      let min_temp := allowed_ranges.temperature_range.1
      let max_temp := allowed_ranges.temperature_range.2
      match collect_points (convert_point min_temp max_temp min_percent max_percent)
          curve with
      | .error e => .error e
      | .ok points =>
        .ok { points := points, allowed_ranges := some allowed_ranges }

/-! ## Event orchestration (`src/lact-daemon/src/lib.rs`) -/

/-- Constant `DRM_EVENT_TIMEOUT_PERIOD_MS`. -/
def DRM_EVENT_TIMEOUT_PERIOD_MS : ℕ := 100

/-- The debounce loop of `listen_device_events`, in a debouncing episode whose
most recent notification arrived at time `last` (milliseconds): each further
notification strictly inside the quiet period `T` restarts the wait; once the
quiet period elapses with no notification, a reload fires at `last + T` and
the loop returns to waiting, so a later notification opens a new episode.
Input: the ascending arrival times of the remaining notifications.
Output: the times at which GPU reloads fire. -/
def debounce_from (T : ℕ) (last : ℕ) : List ℕ → List ℕ
  | [] => [last + T]
  | t :: ts =>
    if t < last + T then debounce_from T t ts
    else (last + T) :: debounce_from T t ts

/-- Model of `listen_device_events`, expressed as a function from the ascending arrival
times of kernel hardware-change notifications to the times at which GPU
reloads fire (handler work treated as instantaneous). -/
def listen_device_events (times : List ℕ) : List ℕ :=
  match times with
  | [] => []
  | t :: ts => debounce_from DRM_EVENT_TIMEOUT_PERIOD_MS t ts

/-- The four `SignalKind`s of `SHUTDOWN_SIGNALS`. -/
inductive SignalKind where
  | terminate
  | interrupt
  | quit
  | hangup
deriving Repr, DecidableEq

/-- Constant `SHUTDOWN_SIGNALS`. -/
def SHUTDOWN_SIGNALS : List SignalKind :=
  [.terminate, .interrupt, .quit, .hangup]

/-- Observable actions of the shutdown coordinator. -/
inductive DaemonAction where
  /-- Action `handler.cleanup().await` -/
  | handlerCleanup
  /-- Action `socket::cleanup()` -/
  | socketCleanup
  /-- Action `std::process::exit(code)` -/
  | processExit (code : ℕ)
deriving Repr, DecidableEq

/-- State of the shutdown coordinator: the actions performed so far, and
whether the process has exited (after which nothing further runs). -/
structure ShutdownState where
  trace : List DaemonAction
  exited : Bool
deriving Repr, DecidableEq

/-- Delivery of one termination signal to `listen_exit_signals`: the first
signal (of any of the four kinds — the body never inspects the kind) makes it
run handler cleanup, then socket cleanup, then exit the process with status 0;
once the process has exited no code runs, so later signals change nothing. -/
def listen_exit_signals_step (st : ShutdownState) (_ : SignalKind) : ShutdownState :=
  if st.exited then st
  else { trace := st.trace ++ [.handlerCleanup, .socketCleanup, .processExit 0],
         exited := true }

/-- Model of `listen_exit_signals`, expressed over the sequence of delivered termination
signals starting from the initial (waiting, nothing done) state. -/
def listen_exit_signals (signals : List SignalKind) : ShutdownState :=
  signals.foldl listen_exit_signals_step { trace := [], exited := false }

/-- State seen by the config hot-reload bridge: the shared configuration
(type `α`, held behind the handler's write lock) and the log of apply
errors. The bridge never exits and never crashes; its step is total. -/
structure BridgeState (α : Type) where
  config : α
  error_log : List String
deriving Repr, DecidableEq

/-- One iteration of the `listen_config_changes` loop body on a received
snapshot: overwrite the shared config under the write lock, then call
`apply_current_config` (modelled by the `apply` argument); a failure is
logged and nothing else happens — in particular the config stays swapped. -/
def listen_config_changes_step {α : Type} (apply : α → Except String Unit)
    (st : BridgeState α) (new_config : α) : BridgeState α :=
  let st' : BridgeState α := { st with config := new_config }
  match apply new_config with
  | .ok _ => st'
  | .error err => { st' with error_log := st'.error_log ++ [err] }

/-- Model of `listen_config_changes`, expressed over the sequence of snapshots received
from the file-watch channel. -/
def listen_config_changes {α : Type} (apply : α → Except String Unit)
    (st : BridgeState α) (snapshots : List α) : BridgeState α :=
  snapshots.foldl (listen_config_changes_step apply) st

/-- Constant `MIN_SYSTEM_UPTIME_SECS`. -/
def MIN_SYSTEM_UPTIME_SECS : ℚ := 15

/-- Helper for `split_whitespace`: walk the characters, accumulating the
current (reversed) token. -/
def split_whitespace_aux : List Char → List Char → List String
  | [], acc => if acc = [] then [] else [String.mk acc.reverse]
  | c :: cs, acc =>
    if c.isWhitespace then
      if acc = [] then split_whitespace_aux cs []
      else String.mk acc.reverse :: split_whitespace_aux cs []
    else split_whitespace_aux cs (c :: acc)

/-- Rust `str::split_whitespace`: the maximal non-empty runs between
whitespace characters. -/
def split_whitespace (s : String) : List String :=
  split_whitespace_aux s.toList []

/-- Numeric value of a digit string (most significant first). -/
def digits_to_nat (ds : List Char) : ℕ :=
  ds.foldl (fun acc d => 10 * acc + d.toNat - '0'.toNat) 0

/-- Rust `f32::from_str` on the plain decimal forms occurring in
`/proc/uptime` (`Digits`, `Digits . Digits?`, `. Digits`, optional sign),
with the value taken exactly in `ℚ`; anything else (empty token, stray
characters, a lone `.`) is `none`. -/
def parse_f32 (s : String) : Option ℚ :=
  let (sign, body) : ℚ × List Char :=
    match s.toList with
    | '-' :: rest => (-1, rest)
    | '+' :: rest => (1, rest)
    | rest => (1, rest)
  let int_part := body.takeWhile Char.isDigit
  let after_int := body.dropWhile Char.isDigit
  match after_int with
  | [] =>
    if int_part.isEmpty then none
    else some (sign * digits_to_nat int_part)
  | '.' :: frac_part =>
    if frac_part.all Char.isDigit ∧ ¬ (int_part.isEmpty ∧ frac_part.isEmpty) then
      some (sign * ((digits_to_nat int_part : ℚ) +
        (digits_to_nat frac_part : ℚ) / 10 ^ frac_part.length))
    else none
  | _ => none

/-- Model of `get_uptime`, over the result of reading `/proc/uptime` (the read itself
is outside the model; `.error` is a failed read). Mirrors: read context
"Could not read uptime"; empty token list context "Could not parse the uptime
file"; parse failure context "Invalid uptime value". -/
def get_uptime (read_result : Except String String) : Except String ℚ :=
  match read_result with
  | .error _ => .error "Could not read uptime"
  | .ok raw_uptime =>
    match (split_whitespace raw_uptime).head? with
    | none => .error "Could not parse the uptime file"
    | some token =>
      match parse_f32 token with
      | none => .error "Invalid uptime value"
      | some v => .ok v

/-- Model of `ensure_sufficient_uptime`: here `some d` means the gate sleeps `d`
milliseconds (`Duration::from_millis((diff * 1000.0) as u64)`); `none` means
it returns without sleeping (uptime sufficient, or read/parse error —
fail-open). -/
def ensure_sufficient_uptime (read_result : Except String String) : Option ℕ :=
  match get_uptime read_result with
  | .ok current_uptime =>
    let diff := MIN_SYSTEM_UPTIME_SECS - current_uptime
    if 0 < diff then some (f32_to_u64 (diff * 1000)) else none
  | .error _ => none

/-! ## Helper lemmas -/

/-- If neither search finds a point, the curve is empty: every key is either
strictly below or at-or-above the probe. -/
theorem curve_eq_nil_of_no_neighbor (curve : FanCurve) (current : ℤ)
    (hl : maybe_lower curve current = none)
    (hh : maybe_higher curve current = none) : curve = [] := by
  cases curve with
  | nil => rfl
  | cons a l =>
    exfalso
    rw [maybe_lower, List.getLast?_eq_none_iff, List.filter_eq_nil_iff] at hl
    rw [maybe_higher, List.head?_eq_none_iff, List.filter_eq_nil_iff] at hh
    have h1 := hl a (List.mem_cons_self a l)
    have h2 := hh a (List.mem_cons_self a l)
    simp only [decide_eq_true_eq] at h1 h2
    omega

/-- A run of `foldl` over the shutdown step does nothing once the process has
exited. -/
theorem foldl_exit_step_of_exited (signals : List SignalKind) (st : ShutdownState)
    (h : st.exited = true) :
    signals.foldl listen_exit_signals_step st = st := by
  induction signals with
  | nil => rfl
  | cons s rest ih =>
    simp only [List.foldl_cons, listen_exit_signals_step, h, if_pos]
    exact ih

/-- One bridge step always leaves the received snapshot as the shared
configuration, whatever the apply result. -/
theorem listen_config_changes_step_config {α : Type}
    (apply : α → Except String Unit) (st : BridgeState α) (c : α) :
    (listen_config_changes_step apply st c).config = c := by
  rw [listen_config_changes_step]
  rcases apply c with e | v <;> rfl

/-- After folding the bridge step over a snapshot sequence, the shared
configuration is the last snapshot. -/
theorem config_after_fold {α : Type} (apply : α → Except String Unit) :
    ∀ (snapshots : List α) (st : BridgeState α) (last : α),
      snapshots.getLast? = some last →
      (snapshots.foldl (listen_config_changes_step apply) st).config = last := by
  intro snapshots
  induction snapshots with
  | nil => intro st last h; simp at h
  | cons c rest ih =>
    intro st last h
    rcases rest with _ | ⟨c2, rest2⟩
    · have hc : c = last := by simpa using h
      subst hc
      simp only [List.foldl_cons, List.foldl_nil]
      exact listen_config_changes_step_config apply st c
    · rw [List.getLast?_cons_cons] at h
      rw [List.foldl_cons]
      exact ih _ last h

/-- A debouncing episode whose remaining notifications each arrive strictly
within the quiet period of the previous one ends with a single reload, fired
one full quiet period after the last notification. -/
theorem debounce_from_burst (T : ℕ) :
    ∀ (ts : List ℕ) (last : ℕ),
      List.Chain (fun a b => a ≤ b ∧ b < a + T) last ts →
      debounce_from T last ts = [ts.getLastD last + T] := by
  intro ts
  induction ts with
  | nil => intro last _; rfl
  | cons t rest ih =>
    intro last h
    rw [List.chain_cons] at h
    obtain ⟨⟨_, hlt⟩, hchain⟩ := h
    rw [debounce_from, if_pos hlt, List.getLastD_cons]
    exact ih t hchain

/-- Two bursts separated by at least one full quiet period produce exactly
two reloads, each one quiet period after its burst's last notification. -/
theorem debounce_from_two_bursts (T : ℕ) :
    ∀ (ts1 : List ℕ) (last t2 : ℕ) (ts2 : List ℕ),
      List.Chain (fun a b => a ≤ b ∧ b < a + T) last ts1 →
      ts1.getLastD last + T ≤ t2 →
      List.Chain (fun a b => a ≤ b ∧ b < a + T) t2 ts2 →
      debounce_from T last (ts1 ++ t2 :: ts2) =
        [ts1.getLastD last + T, ts2.getLastD t2 + T] := by
  intro ts1
  induction ts1 with
  | nil =>
    intro last t2 ts2 _ hgap hchain2
    rw [List.getLastD_nil] at hgap
    rw [List.nil_append, debounce_from, if_neg (by omega)]
    rw [debounce_from_burst T ts2 t2 hchain2]
    rfl
  | cons t rest ih =>
    intro last t2 ts2 h1 hgap hchain2
    rw [List.chain_cons] at h1
    obtain ⟨⟨_, hlt⟩, hchain⟩ := h1
    rw [List.getLastD_cons] at hgap ⊢
    rw [List.cons_append, debounce_from, if_pos hlt]
    exact ih t t2 ts2 hchain hgap hchain2

/-- The per-point conversion succeeds exactly when the point's temperature
lies in the allowed temperature range and its computed percent lies in the
allowed speed range. -/
theorem convert_point_ok_iff (mt Mt : ℤ) (mp Mp : ℕ) (p : ℤ × ℚ) :
    (∃ q, convert_point mt Mt mp Mp p = .ok q) ↔
      ((mt ≤ p.1 ∧ p.1 ≤ Mt) ∧
       (mp ≤ f32_to_u8 (p.2 * 100) ∧ f32_to_u8 (p.2 * 100) ≤ Mp)) := by
  simp only [convert_point]
  by_cases h1 : mt ≤ p.1 ∧ p.1 ≤ Mt
  · by_cases h2 : mp ≤ f32_to_u8 (p.2 * 100) ∧ f32_to_u8 (p.2 * 100) ≤ Mp
    · rw [if_neg (not_not_intro h1), if_neg (not_not_intro h2)]
      exact iff_of_true ⟨_, rfl⟩ ⟨h1, h2⟩
    · rw [if_neg (not_not_intro h1), if_pos h2]
      exact iff_of_false (fun ⟨q, hq⟩ => by simp at hq) (fun h => h2 h.2)
  · rw [if_pos h1]
    exact iff_of_false (fun ⟨q, hq⟩ => by simp at hq) (fun h => h1 h.1)

/-- Collecting the per-point results succeeds exactly when every point
converts. -/
theorem collect_points_ok_iff (f : ℤ × ℚ → Except PmfwError (ℤ × ℕ)) :
    ∀ l : List (ℤ × ℚ),
      (∃ out, collect_points f l = .ok out) ↔ ∀ p ∈ l, ∃ q, f p = .ok q := by
  intro l
  induction l with
  | nil => simp [collect_points]
  | cons p ps ih =>
    rw [collect_points]
    constructor
    · rintro ⟨out, hout⟩
      cases hf : f p with
      | error e => rw [hf] at hout; exact absurd hout (by simp)
      | ok q =>
        rw [hf] at hout
        cases hc : collect_points f ps with
        | error e => rw [hc] at hout; exact absurd hout (by simp)
        | ok qs =>
          intro x hx
          rcases List.mem_cons.mp hx with hx | hx
          · exact hx ▸ ⟨q, hf⟩
          · exact (ih.mp ⟨qs, hc⟩) x hx
    · intro hall
      obtain ⟨q, hq⟩ := hall p (List.mem_cons_self p ps)
      obtain ⟨qs, hqs⟩ := ih.mpr (fun x hx => hall x (List.mem_cons_of_mem p hx))
      exact ⟨q :: qs, by rw [hq, hqs]⟩

/-- Under the sorted-keys invariant, `maybe_lower` returns exactly the
greatest entry with key strictly below the probe. -/
theorem maybe_lower_eq_some_iff (c : ℤ) :
    ∀ (l : FanCurve), CurveSorted l → ∀ p,
      (maybe_lower l c = some p ↔
        p ∈ l ∧ p.1 < c ∧ ∀ q ∈ l, q.1 < c → q.1 ≤ p.1) := by
  intro l
  induction l with
  | nil => intro _ p; simp [maybe_lower]
  | cons a t ih =>
    intro hs p
    rw [CurveSorted, List.pairwise_cons] at hs
    obtain ⟨ha, hst⟩ := hs
    rw [maybe_lower, List.filter_cons]
    by_cases hac : a.1 < c
    · rw [if_pos (by simpa using hac)]
      rcases hft : List.filter (fun q => decide (q.1 < c)) t with _ | ⟨b, r⟩
      · rw [hft]
        rw [show (a :: ([] : List (ℤ × ℚ))).getLast? = some a from rfl]
        constructor
        · intro h
          injection h with h
          subst h
          refine ⟨List.mem_cons_self a t, hac, fun q hq hqc => ?_⟩
          rcases List.mem_cons.mp hq with h | h
          · rw [h]
          · exact absurd (by simpa using And.intro h hqc)
              (by simpa using List.filter_eq_nil_iff.mp hft q)
        · rintro ⟨hp, hpc, hmax⟩
          rcases List.mem_cons.mp hp with h | h
          · rw [h]
          · exact absurd (by simpa using And.intro h hpc)
              (by simpa using List.filter_eq_nil_iff.mp hft p)
      · rw [hft]
        rw [show a :: b :: r = [a] ++ b :: r from rfl,
          List.getLast?_append_of_ne_nil [a] (by simp)]
        rw [← hft, ← maybe_lower, ih hst p]
        obtain ⟨q0, hq0⟩ : ∃ q0, q0 ∈ t ∧ q0.1 < c := by
          have : b ∈ List.filter (fun q => decide (q.1 < c)) t := by
            rw [hft]; exact List.mem_cons_self b r
          exact ⟨b, by simpa using List.mem_filter.mp this⟩
        constructor
        · rintro ⟨hp, hpc, hmax⟩
          refine ⟨List.mem_cons_of_mem a hp, hpc, fun q hq hqc => ?_⟩
          rcases List.mem_cons.mp hq with h | h
          · exact h ▸ le_of_lt (ha p hp)
          · exact hmax q h hqc
        · rintro ⟨hp, hpc, hmax⟩
          rcases List.mem_cons.mp hp with h | h
          · exact absurd (hmax q0 (List.mem_cons_of_mem a hq0.1) hq0.2)
              (not_le.mpr (h ▸ ha q0 hq0.1))
          · exact ⟨h, hpc, fun q hq hqc => hmax q (List.mem_cons_of_mem a hq) hqc⟩
    · have hnone : ∀ q ∈ a :: t, ¬ q.1 < c := by
        intro q hq
        rcases List.mem_cons.mp hq with h | h
        · exact h ▸ hac
        · exact fun hqc => hac (lt_trans (ha q h) hqc)
      rw [if_neg (by simpa using hac)]
      have hfilt : List.filter (fun q => decide (q.1 < c)) t = [] := by
        rw [List.filter_eq_nil_iff]
        intro q hq
        simpa using hnone q (List.mem_cons_of_mem a hq)
      rw [hfilt]
      constructor
      · intro h; exact absurd h (by simp)
      · rintro ⟨hp, hpc, _⟩
        exact absurd hpc (hnone p hp)

/-- Under the sorted-keys invariant, `maybe_higher` returns exactly the
least entry with key at or above the probe. -/
theorem maybe_higher_eq_some_iff (c : ℤ) :
    ∀ (l : FanCurve), CurveSorted l → ∀ p,
      (maybe_higher l c = some p ↔
        p ∈ l ∧ c ≤ p.1 ∧ ∀ q ∈ l, c ≤ q.1 → p.1 ≤ q.1) := by
  intro l
  induction l with
  | nil => intro _ p; simp [maybe_higher]
  | cons a t ih =>
    intro hs p
    rw [CurveSorted, List.pairwise_cons] at hs
    obtain ⟨ha, hst⟩ := hs
    rw [maybe_higher, List.filter_cons]
    by_cases hac : c ≤ a.1
    · rw [if_pos (by simpa using hac), List.head?_cons]
      constructor
      · intro h
        injection h with h
        subst h
        refine ⟨List.mem_cons_self a t, hac, fun q hq _ => ?_⟩
        rcases List.mem_cons.mp hq with h | h
        · rw [h]
        · exact le_of_lt (ha q h)
      · rintro ⟨hp, hcp, hmin⟩
        rcases List.mem_cons.mp hp with h | h
        · rw [h]
        · exact absurd (hmin a (List.mem_cons_self a t) hac)
            (not_le.mpr (ha p h))
    · rw [if_neg (by simpa using hac), ← maybe_higher, ih hst p]
      constructor
      · rintro ⟨hp, hcp, hmin⟩
        refine ⟨List.mem_cons_of_mem a hp, hcp, fun q hq hcq => ?_⟩
        rcases List.mem_cons.mp hq with h | h
        · exact absurd (h ▸ hcq) hac
        · exact hmin q h hcq
      · rintro ⟨hp, hcp, hmin⟩
        rcases List.mem_cons.mp hp with h | h
        · exact absurd (h ▸ hcp) hac
        · exact ⟨h, hcp, fun q hq hcq => hmin q (List.mem_cons_of_mem a hq) hcq⟩

/-! ## Claims -/

/-- C1: For every fan curve and every temperature reading whose current and
critical temperatures are both present, if the current temperature is
strictly greater than the critical temperature, then `pwm_at_temp` returns
exactly 255, regardless of the curve's contents. -/
theorem C1_critical_clamp (curve : FanCurve) (current crit : ℚ)
    (crit_hyst : Option ℚ) (h : crit < current) :
    pwm_at_temp curve ⟨some current, some crit, crit_hyst⟩ = some 255 := by
  simp [pwm_at_temp, crit_clamp, h]

/-- C1 witness: concrete instance at current 91, critical 90, empty curve. -/
theorem C1_critical_clamp_witness :
    pwm_at_temp [] ⟨some 91, some 90, none⟩ = some 255 :=
  C1_critical_clamp [] 91 90 none (by norm_num)

/-- C2: `into_pmfw_curve` succeeds if and only if the user curve's point
count equals the hardware curve's point count, the hardware curve's allowed
ranges are present, and every user point's temperature lies in the allowed
temperature range while its computed percent (ratio times 100, truncated)
lies in the allowed speed range; each failure is a descriptive error naming
the offending value and the allowed bounds — in particular a point at
temperature 20 against allowed range 25 to 100 fails with an error naming
20, 25 and 100, and a point computing to 10 % against allowed speed range
30 to 100 fails with an error naming 10, 30 and 100. -/
theorem C2_convert_legality :
    (∀ (curve : FanCurve) (hw : PmfwCurve),
      (∃ out, into_pmfw_curve curve hw = .ok out) ↔
        (hw.points.length = curve.length ∧
         ∃ ar, hw.allowed_ranges = some ar ∧
           ∀ p ∈ curve,
             (ar.temperature_range.1 ≤ p.1 ∧ p.1 ≤ ar.temperature_range.2) ∧
             (ar.speed_range.1 ≤ f32_to_u8 (p.2 * 100) ∧
              f32_to_u8 (p.2 * 100) ≤ ar.speed_range.2))) ∧
    into_pmfw_curve [(20, 0.4), (50, 0.35), (60, 0.5), (70, 0.75), (80, 1)]
        { points := [(0, 0), (0, 0), (0, 0), (0, 0), (0, 0)],
          allowed_ranges := some { temperature_range := (25, 100),
                                   speed_range := (30, 100) } } =
      .error (.tempOutOfRange 20 25 100) ∧
    into_pmfw_curve [(40, 0.1), (50, 0.35), (60, 0.5), (70, 0.75), (80, 1)]
        { points := [(0, 0), (0, 0), (0, 0), (0, 0), (0, 0)],
          allowed_ranges := some { temperature_range := (25, 100),
                                   speed_range := (30, 100) } } =
      .error (.speedOutOfRange 10 30 100) := by
  refine ⟨?_, ?_, ?_⟩
  · intro curve hw
    obtain ⟨hwpoints, hwranges⟩ := hw
    by_cases hlen : hwpoints.length = curve.length
    · cases hwranges with
      | none =>
        rw [into_pmfw_curve]
        dsimp only
        rw [if_neg (not_not_intro hlen)]
        exact iff_of_false (fun ⟨out, h⟩ => by simp at h)
          (fun ⟨_, ar, har, _⟩ => by simp at har)
      | some ar =>
        rw [into_pmfw_curve]
        dsimp only
        rw [if_neg (not_not_intro hlen)]
        constructor
        · rintro ⟨out, hout⟩
          cases hc : collect_points (convert_point ar.temperature_range.1
              ar.temperature_range.2 ar.speed_range.1 ar.speed_range.2) curve with
          | error e => rw [hc] at hout; simp at hout
          | ok pts =>
            refine ⟨hlen, ar, rfl, ?_⟩
            intro p hp
            exact (convert_point_ok_iff _ _ _ _ p).mp
              ((collect_points_ok_iff _ curve).mp ⟨pts, hc⟩ p hp)
        · rintro ⟨_, ar2, har2, hall⟩
          injection har2 with he
          subst he
          obtain ⟨pts, hc⟩ := (collect_points_ok_iff _ curve).mpr
            (fun p hp => (convert_point_ok_iff _ _ _ _ p).mpr (hall p hp))
          exact ⟨_, by rw [hc]⟩
    · rw [into_pmfw_curve]
      dsimp only
      rw [if_pos hlen]
      exact iff_of_false (fun ⟨out, h⟩ => by simp at h) (fun ⟨he, _⟩ => hlen he)
  · norm_num [into_pmfw_curve, collect_points, convert_point, f32_to_u8, rat_trunc]
  · norm_num [into_pmfw_curve, collect_points, convert_point, f32_to_u8, rat_trunc]
    decide

/-- C2 witness: the engine's default five-point curve against a five-point
hardware curve with temperature range 25–100 and speed range 30–100
converts successfully. -/
theorem C2_convert_legality_witness :
    ∃ out, into_pmfw_curve
        [(40, 0.3), (50, 0.35), (60, 0.5), (70, 0.75), (80, 1)]
        { points := [(0, 0), (0, 0), (0, 0), (0, 0), (0, 0)],
          allowed_ranges := some { temperature_range := (25, 100),
                                   speed_range := (30, 100) } } = .ok out :=
  (C2_convert_legality.1 [(40, 0.3), (50, 0.35), (60, 0.5), (70, 0.75), (80, 1)]
      { points := [(0, 0), (0, 0), (0, 0), (0, 0), (0, 0)],
        allowed_ranges := some { temperature_range := (25, 100),
                                 speed_range := (30, 100) } }).mpr
    ⟨rfl, { temperature_range := (25, 100), speed_range := (30, 100) }, rfl, by
      intro p hp
      simp only [List.mem_cons, List.not_mem_nil, or_false] at hp
      rcases hp with hp | hp | hp | hp | hp <;> subst hp <;>
        norm_num [f32_to_u8, rat_trunc]⟩

/-- C3: when both a lower and a higher neighboring curve point exist for the
current temperature, `pwm_at_temp` linearly interpolates the ratio between
the two points proportionally to the temperature's position between their
temperatures, and converts the resulting ratio to a byte by multiplying by
255 and truncating toward zero; in particular, for the curve
`{0 ↦ 0.0, 100 ↦ 1.0}` it returns 114 at current 45.0, 0 at 0.0 and −5.0,
255 at 100.0 and 105.0, and for the curve
`{30 ↦ 0.0, 40 ↦ 0.1, 55 ↦ 0.9, 61 ↦ 1.0}` it returns 0, 12, 25, 120, 188,
202, 215 at currents 30, 35, 40, 47, 52, 53, 54 respectively. -/
theorem C3_linear_interpolation :
    (∀ (curve : FanCurve) (current : ℚ) (crit crit_hyst : Option ℚ)
       (lower_temp higher_temp : ℤ) (lower_speed higher_speed : ℚ),
      crit_clamp crit current = false →
      maybe_lower curve (f32_to_i32 current) = some (lower_temp, lower_speed) →
      maybe_higher curve (f32_to_i32 current) = some (higher_temp, higher_speed) →
      pwm_at_temp curve ⟨some current, crit, crit_hyst⟩ =
        some (f32_to_u8 (255 * (lower_speed + (higher_speed - lower_speed) *
          (((f32_to_i32 current : ℚ) - (lower_temp : ℚ)) /
           ((higher_temp : ℚ) - (lower_temp : ℚ))))))) ∧
    pwm_at_temp [(0, 0), (100, 1)] ⟨some 45, some 150, some (-100)⟩ = some 114 ∧
    pwm_at_temp [(0, 0), (100, 1)] ⟨some 0, some 150, some (-100)⟩ = some 0 ∧
    pwm_at_temp [(0, 0), (100, 1)] ⟨some 100, some 150, some (-100)⟩ = some 255 ∧
    pwm_at_temp [(0, 0), (100, 1)] ⟨some (-5), some 150, some (-100)⟩ = some 0 ∧
    pwm_at_temp [(0, 0), (100, 1)] ⟨some 105, some 150, some (-100)⟩ = some 255 ∧
    pwm_at_temp [(30, 0), (40, 0.1), (55, 0.9), (61, 1)]
      ⟨some 30, some 90, some 0⟩ = some 0 ∧
    pwm_at_temp [(30, 0), (40, 0.1), (55, 0.9), (61, 1)]
      ⟨some 35, some 90, some 0⟩ = some 12 ∧
    pwm_at_temp [(30, 0), (40, 0.1), (55, 0.9), (61, 1)]
      ⟨some 40, some 90, some 0⟩ = some 25 ∧
    pwm_at_temp [(30, 0), (40, 0.1), (55, 0.9), (61, 1)]
      ⟨some 47, some 90, some 0⟩ = some 120 ∧
    pwm_at_temp [(30, 0), (40, 0.1), (55, 0.9), (61, 1)]
      ⟨some 52, some 90, some 0⟩ = some 188 ∧
    pwm_at_temp [(30, 0), (40, 0.1), (55, 0.9), (61, 1)]
      ⟨some 53, some 90, some 0⟩ = some 202 ∧
    pwm_at_temp [(30, 0), (40, 0.1), (55, 0.9), (61, 1)]
      ⟨some 54, some 90, some 0⟩ = some 215 := by
  refine ⟨?_, ?_, ?_, ?_, ?_, ?_, ?_, ?_, ?_, ?_, ?_, ?_, ?_⟩
  · intro curve current crit crit_hyst lower_temp higher_temp lower_speed
      higher_speed hclamp hl hh
    simp [pwm_at_temp, hclamp, hl, hh]
  all_goals norm_num [pwm_at_temp, crit_clamp, maybe_lower, maybe_higher,
    f32_to_i32, f32_to_u8, rat_trunc, Int.ceil_neg]
  all_goals rfl

/-- C3 witness: the general interpolation statement applied to the curve
`{0 ↦ 0.0, 100 ↦ 1.0}` at current 45 (lower point (0, 0), higher point
(100, 1)). -/
theorem C3_linear_interpolation_witness :
    pwm_at_temp [(0, 0), (100, 1)] ⟨some 45, some 150, some (-100)⟩ =
      some (f32_to_u8 (255 * (0 + (1 - 0) *
        (((f32_to_i32 45 : ℚ) - ((0 : ℤ) : ℚ)) /
         (((100 : ℤ) : ℚ) - ((0 : ℤ) : ℚ)))))) :=
  C3_linear_interpolation.1 [(0, 0), (100, 1)] 45 (some 150) (some (-100))
    0 100 0 1
    (by norm_num [crit_clamp])
    (by norm_num [maybe_lower, f32_to_i32, rat_trunc])
    (by norm_num [maybe_higher, f32_to_i32, rat_trunc])

/-- C4 counterexample: at a current temperature exactly equal to a curve key
(curve `{0 ↦ 0.0, 100 ↦ 1.0}`, current 0), the source's lower search
`range(..current)` returns nothing — the point equal to current is found by
the at-or-above search — whereas the claim's at-or-below lower search would
return that point, so the lower point is not "the greatest curve key less
than or equal to current". -/
theorem C4_counterexample :
    maybe_lower [(0, 0), (100, 1)] 0 = none ∧
    maybe_lower_spec [(0, 0), (100, 1)] 0 = some (0, 0) ∧
    maybe_lower [(0, 0), (100, 1)] 0 ≠ maybe_lower_spec [(0, 0), (100, 1)] 0 ∧
    maybe_higher [(0, 0), (100, 1)] 0 = some (0, 0) := by
  have h1 : maybe_lower [(0, 0), (100, 1)] 0 = none := rfl
  have h2 : maybe_lower_spec [(0, 0), (100, 1)] 0 = some (0, 0) := rfl
  refine ⟨h1, h2, ?_, rfl⟩
  rw [h1, h2]
  exact fun h => Option.noConfusion h

/-- C4 (amended): `pwm_at_temp`'s neighbor search finds the greatest curve
key strictly less than current as the lower point and the least curve key
greater than or equal to current as the higher point, using disjoint
ranges, so that a curve point whose temperature is exactly equal to the
current temperature is resolved by the at-or-above search rather than the
at-or-below search (and the result at such a temperature is that point's
ratio scaled to a byte). -/
theorem C4_neighbor_searches (curve : FanCurve) (hs : CurveSorted curve)
    (current : ℤ) :
    (∀ p, maybe_lower curve current = some p ↔
      p ∈ curve ∧ p.1 < current ∧ ∀ q ∈ curve, q.1 < current → q.1 ≤ p.1) ∧
    (∀ p, maybe_higher curve current = some p ↔
      p ∈ curve ∧ current ≤ p.1 ∧ ∀ q ∈ curve, current ≤ q.1 → p.1 ≤ q.1) ∧
    (∀ v, (current, v) ∈ curve →
      maybe_higher curve current = some (current, v) ∧
      (∀ p, maybe_lower curve current = some p → p.1 ≠ current) ∧
      (∀ cq crit crit_hyst, f32_to_i32 cq = current →
        crit_clamp crit cq = false →
        pwm_at_temp curve ⟨some cq, crit, crit_hyst⟩ =
          some (f32_to_u8 (255 * v)))) := by
  refine ⟨maybe_lower_eq_some_iff current curve hs,
    maybe_higher_eq_some_iff current curve hs, ?_⟩
  intro v hv
  have hhigh : maybe_higher curve current = some (current, v) := by
    rw [maybe_higher_eq_some_iff current curve hs]
    exact ⟨hv, le_refl current, fun q _ hcq => hcq⟩
  have hlowne : ∀ p, maybe_lower curve current = some p → p.1 ≠ current := by
    intro p hp
    exact ne_of_lt ((maybe_lower_eq_some_iff current curve hs p).mp hp).2.1
  refine ⟨hhigh, hlowne, ?_⟩
  intro cq crit crit_hyst hcast hclamp
  rcases hl : maybe_lower curve current with _ | ⟨lt, ls⟩
  · simp [pwm_at_temp, hclamp, hcast, hl, hhigh]
  · have hlt : lt < current :=
      ((maybe_lower_eq_some_iff current curve hs (lt, ls)).mp hl).2.1
    have hne : ((current : ℚ) - (lt : ℚ)) ≠ 0 := by
      have hq : (lt : ℚ) < (current : ℚ) := by exact_mod_cast hlt
      linarith
    simp [pwm_at_temp, hclamp, hcast, hl, hhigh, div_self hne]

/-- C4 witness: the amended statement at the sorted curve
`{0 ↦ 0.0, 100 ↦ 1.0}` with current 0: the at-or-above search resolves the
point (0, 0), and the duty byte is that point's ratio scaled. -/
theorem C4_neighbor_searches_witness :
    maybe_higher [(0, 0), (100, 1)] 0 = some (0, 0) ∧
    pwm_at_temp [(0, 0), (100, 1)] ⟨some 0, none, none⟩ =
      some (f32_to_u8 (255 * 0)) := by
  have h := (C4_neighbor_searches [(0, 0), (100, 1)] (by decide) 0).2.2 0
    (List.mem_cons_self _ _)
  exact ⟨h.1, h.2.2 0 none none (by norm_num [f32_to_i32, rat_trunc]) rfl⟩

/-- C5 counterexample: the claim says `pwm_at_temp` panics whenever the curve
has no points, but with an empty curve and a current temperature above the
critical threshold the critical clamp fires first and the call returns 255
without reaching the empty-curve panic. -/
theorem C5_counterexample :
    pwm_at_temp [] ⟨some 100, some 50, none⟩ = some 255 ∧
      pwm_at_temp [] ⟨some 100, some 50, none⟩ ≠ none := by
  have h : pwm_at_temp [] ⟨some 100, some 50, none⟩ = some 255 := by
    norm_num [pwm_at_temp, crit_clamp]
  exact ⟨h, by rw [h]; simp⟩

/-- C5 (amended): `pwm_at_temp` faults only on a caller contract violation:
it panics (modelled as `none`) when the reading's current temperature is
absent, or when the curve has no points and the critical clamp does not
fire; for every curve with at least one point and every reading with a
present current temperature it returns a duty byte without panicking, the
empty-curve branch being unreachable because the strictly-below and
at-or-above searches together cover every key of a non-empty curve. -/
theorem C5_panic_conditions (curve : FanCurve) (temp : Temperature) :
    (temp.current = none → pwm_at_temp curve temp = none) ∧
    (∀ current, temp.current = some current →
      crit_clamp temp.crit current = false → curve = [] →
      pwm_at_temp curve temp = none) ∧
    (∀ t, maybe_lower curve t = none → maybe_higher curve t = none →
      curve = []) ∧
    (∀ current, temp.current = some current → curve ≠ [] →
      ∃ b, pwm_at_temp curve temp = some b) := by
  refine ⟨?_, ?_, ?_, ?_⟩
  · intro h
    simp [pwm_at_temp, h]
  · intro current hcur hclamp hnil
    subst hnil
    simp [pwm_at_temp, hcur, hclamp, maybe_lower, maybe_higher]
  · exact fun t => curve_eq_nil_of_no_neighbor curve t
  · intro current hcur hne
    obtain ⟨c, crit, ch⟩ := temp
    dsimp only at hcur
    subst hcur
    cases hclamp : crit_clamp crit current with
    | true => exact ⟨255, by simp [pwm_at_temp, hclamp]⟩
    | false =>
      rcases hl : maybe_lower curve (f32_to_i32 current) with _ | ⟨lt, ls⟩ <;>
        rcases hh : maybe_higher curve (f32_to_i32 current) with _ | ⟨ht, hsp⟩
      · exact absurd (curve_eq_nil_of_no_neighbor curve _ hl hh) hne
      · exact ⟨f32_to_u8 (255 * hsp), by
          simp [pwm_at_temp, hclamp, hl, hh]⟩
      · exact ⟨f32_to_u8 (255 * ls), by
          simp [pwm_at_temp, hclamp, hl, hh]⟩
      · exact ⟨f32_to_u8 (255 * (ls + (hsp - ls) *
            (((f32_to_i32 current : ℚ) - (lt : ℚ)) / ((ht : ℚ) - (lt : ℚ))))), by
          simp [pwm_at_temp, hclamp, hl, hh]⟩

/-- C5 witness: the amended statement applied at the one-point curve
`{50 ↦ 1/2}` and a reading at 60 °C with no critical threshold. -/
theorem C5_panic_conditions_witness :
    ∃ b, pwm_at_temp [(50, 1/2)] ⟨some 60, none, none⟩ = some b :=
  (C5_panic_conditions [(50, 1/2)] ⟨some 60, none, none⟩).2.2.2 60 rfl
    (by simp)

/-- C6: every burst of N ≥ 1 kernel hardware-change notifications in which
each successive notification arrives strictly within the 100 ms quiet period
after the previous one triggers exactly one GPU reload, issued only once a
full quiet period elapses with no new notification (at the last arrival time
plus 100 ms — each new notification having restarted the wait); and after
the reload the debouncer waits for a first notification again, so a second
such burst starting at least one full quiet period after the first burst's
last notification triggers exactly one further reload. -/
theorem C6_debounce_coalescing :
    (∀ (t0 : ℕ) (ts : List ℕ),
      List.Chain (fun a b => a ≤ b ∧ b < a + DRM_EVENT_TIMEOUT_PERIOD_MS) t0 ts →
      listen_device_events (t0 :: ts) =
        [ts.getLastD t0 + DRM_EVENT_TIMEOUT_PERIOD_MS]) ∧
    (∀ (t0 : ℕ) (ts1 : List ℕ) (t2 : ℕ) (ts2 : List ℕ),
      List.Chain (fun a b => a ≤ b ∧ b < a + DRM_EVENT_TIMEOUT_PERIOD_MS) t0 ts1 →
      ts1.getLastD t0 + DRM_EVENT_TIMEOUT_PERIOD_MS ≤ t2 →
      List.Chain (fun a b => a ≤ b ∧ b < a + DRM_EVENT_TIMEOUT_PERIOD_MS) t2 ts2 →
      listen_device_events (t0 :: (ts1 ++ t2 :: ts2)) =
        [ts1.getLastD t0 + DRM_EVENT_TIMEOUT_PERIOD_MS,
         ts2.getLastD t2 + DRM_EVENT_TIMEOUT_PERIOD_MS]) := by
  constructor
  · intro t0 ts h
    exact debounce_from_burst DRM_EVENT_TIMEOUT_PERIOD_MS ts t0 h
  · intro t0 ts1 t2 ts2 h1 hgap h2
    exact debounce_from_two_bursts DRM_EVENT_TIMEOUT_PERIOD_MS ts1 t0 t2 ts2 h1 hgap h2

/-- C6 witness: a burst at 0, 50 and 99 ms (each gap under 100 ms) fires one
reload at 199 ms; with a second burst at 260 and 300 ms there are exactly
two reloads, at 199 and 400 ms. -/
theorem C6_debounce_coalescing_witness :
    listen_device_events [0, 50, 99] = [199] ∧
      listen_device_events [0, 50, 99, 260, 300] = [199, 400] :=
  ⟨C6_debounce_coalescing.1 0 [50, 99]
     (by norm_num [List.chain_cons, DRM_EVENT_TIMEOUT_PERIOD_MS]),
   C6_debounce_coalescing.2 0 [50, 99] 260 [300]
     (by norm_num [List.chain_cons, DRM_EVENT_TIMEOUT_PERIOD_MS]) (by decide)
     (by norm_num [List.chain_cons, DRM_EVENT_TIMEOUT_PERIOD_MS])⟩

/-- C7: on the first received signal of any of the four termination kinds,
`listen_exit_signals` runs cleanup exactly once (handler cleanup followed by
control-socket removal) and then terminates the process with a success
status; any further termination signals cause no additional cleanup
invocation and no additional exit. -/
theorem C7_shutdown_once (signals : List SignalKind) (h : signals ≠ []) :
    listen_exit_signals signals =
      { trace := [.handlerCleanup, .socketCleanup, .processExit 0],
        exited := true } := by
  rcases signals with _ | ⟨s, rest⟩
  · exact absurd rfl h
  · rw [listen_exit_signals, List.foldl_cons]
    rw [show listen_exit_signals_step { trace := [], exited := false } s =
        { trace := [.handlerCleanup, .socketCleanup, .processExit 0],
          exited := true } from rfl]
    exact foldl_exit_step_of_exited rest _ rfl

/-- C7 witness: two signals in quick succession still produce exactly one
handler cleanup, one socket cleanup and one successful exit. -/
theorem C7_shutdown_once_witness :
    listen_exit_signals [.terminate, .interrupt] =
      { trace := [.handlerCleanup, .socketCleanup, .processExit 0],
        exited := true } :=
  C7_shutdown_once [.terminate, .interrupt] (by simp)

/-- C8: for every configuration snapshot received from the file-watch
channel, the bridge replaces the shared configuration and then invokes the
apply; on apply failure the error is logged and the newly swapped
configuration remains in effect (over any sequence of snapshots, the final
configuration is the last snapshot received, whatever the apply results) —
the previous configuration is never restored, and the step is total (the
daemon keeps running). -/
theorem C8_config_swap {α : Type} (apply : α → Except String Unit)
    (st : BridgeState α) (new_config : α) (snapshots : List α) :
    ((listen_config_changes_step apply st new_config).config = new_config) ∧
    (∀ err, apply new_config = .error err →
      listen_config_changes_step apply st new_config =
        { config := new_config, error_log := st.error_log ++ [err] }) ∧
    (apply new_config = .ok () →
      listen_config_changes_step apply st new_config =
        { config := new_config, error_log := st.error_log }) ∧
    (∀ last, snapshots.getLast? = some last →
      (listen_config_changes apply st snapshots).config = last) := by
  refine ⟨?_, ?_, ?_, ?_⟩
  · rw [listen_config_changes_step]
    rcases apply new_config with _ | _ <;> rfl
  · intro err herr
    rw [listen_config_changes_step, herr]
  · intro hok
    rw [listen_config_changes_step, hok]
  · exact fun last h => config_after_fold apply snapshots st last h

/-- C8 witness: a failing apply still leaves the freshly received snapshot
in place and logs the error. -/
theorem C8_config_swap_witness :
    (listen_config_changes_step (fun _ : ℕ => .error "boom") ⟨0, []⟩ 7).config = 7 ∧
    listen_config_changes_step (fun _ : ℕ => .error "boom") ⟨0, []⟩ 7 =
      { config := 7, error_log := ["boom"] } :=
  ⟨(C8_config_swap (fun _ : ℕ => .error "boom") ⟨0, []⟩ 7 []).1,
   (C8_config_swap (fun _ : ℕ => .error "boom") ⟨0, []⟩ 7 []).2.1 "boom" rfl⟩

/-- C9: the Startup Uptime Gate parses the first whitespace-delimited token
of the uptime file as the uptime value (empty or unparseable content is an
error); on any read or parse error it returns without sleeping (fail-open);
if the uptime `u` is below the 15-second minimum it sleeps the remaining
`15 - u` seconds (as truncated milliseconds) before returning; and if `u` is
at least 15 it returns without sleeping. -/
theorem C9_uptime_gate :
    (∀ err, ensure_sufficient_uptime (.error err) = none) ∧
    (∀ raw, split_whitespace raw = [] →
      get_uptime (.ok raw) = .error "Could not parse the uptime file" ∧
      ensure_sufficient_uptime (.ok raw) = none) ∧
    (∀ raw tok rest, split_whitespace raw = tok :: rest →
      (∀ u, parse_f32 tok = some u → get_uptime (.ok raw) = .ok u) ∧
      (parse_f32 tok = none →
        get_uptime (.ok raw) = .error "Invalid uptime value" ∧
        ensure_sufficient_uptime (.ok raw) = none)) ∧
    (∀ read_result u, get_uptime read_result = .ok u →
      u < MIN_SYSTEM_UPTIME_SECS →
      ensure_sufficient_uptime read_result =
        some (f32_to_u64 ((MIN_SYSTEM_UPTIME_SECS - u) * 1000))) ∧
    (∀ read_result u, get_uptime read_result = .ok u →
      MIN_SYSTEM_UPTIME_SECS ≤ u →
      ensure_sufficient_uptime read_result = none) := by
  refine ⟨fun err => rfl, ?_, ?_, ?_, ?_⟩
  · intro raw h
    constructor
    · rw [get_uptime, h]; rfl
    · rw [ensure_sufficient_uptime, get_uptime, h]; rfl
  · intro raw tok rest h
    constructor
    · intro u hu
      rw [get_uptime, h]
      simp only [List.head?_cons, hu]
    · intro hu
      constructor
      · rw [get_uptime, h]
        simp only [List.head?_cons, hu]
      · rw [ensure_sufficient_uptime, get_uptime, h]
        simp only [List.head?_cons, hu]
  · intro read_result u hget hu
    rw [ensure_sufficient_uptime, hget]
    simp only
    rw [if_pos (sub_pos.mpr hu)]
  · intro read_result u hget hu
    rw [ensure_sufficient_uptime, hget]
    simp only
    rw [if_neg (not_lt.mpr (sub_nonpos.mpr hu))]

/-- C9 witness: uptime file content "3.5 100" parses to 3.5 s, which is
below the 15 s minimum, so the gate sleeps the remaining 11.5 s (as
truncated milliseconds). -/
theorem C9_uptime_gate_witness :
    ensure_sufficient_uptime (.ok "3.5 100") =
      some (f32_to_u64 ((MIN_SYSTEM_UPTIME_SECS - 3.5) * 1000)) :=
  C9_uptime_gate.2.2.2.1 (.ok "3.5 100") 3.5
    (by
      have h : get_uptime (.ok "3.5 100") =
          .ok ((1 : ℚ) * (((3 : ℕ) : ℚ) + ((5 : ℕ) : ℚ) / 10 ^ (1 : ℕ))) := rfl
      rw [h]
      norm_num)
    (by norm_num [MIN_SYSTEM_UPTIME_SECS])

/-- C10: before the neighbor search and interpolation `pwm_at_temp`
truncates the (non-critical) current temperature toward zero to an integer,
so any two readings whose current temperatures truncate to the same integer
and compare identically against the critical threshold produce the same
duty byte; the fractional part never influences the interpolated result. -/
theorem C10_truncation (curve : FanCurve) (t1 t2 : ℚ) (crit ch1 ch2 : Option ℚ)
    (htrunc : rat_trunc t1 = rat_trunc t2)
    (hcrit : crit_clamp crit t1 = crit_clamp crit t2) :
    pwm_at_temp curve ⟨some t1, crit, ch1⟩ =
      pwm_at_temp curve ⟨some t2, crit, ch2⟩ := by
  have hi : f32_to_i32 t1 = f32_to_i32 t2 := by
    rw [f32_to_i32, f32_to_i32, htrunc]
  simp only [pwm_at_temp, hcrit, hi]

/-- C10 witness: readings at 45.2 °C and 45.9 °C (both truncating to 45,
both below the 90 °C threshold) produce the same duty byte. -/
theorem C10_truncation_witness :
    pwm_at_temp [(0, 0), (100, 1)] ⟨some 45.2, some 90, none⟩ =
      pwm_at_temp [(0, 0), (100, 1)] ⟨some 45.9, some 90, none⟩ :=
  C10_truncation [(0, 0), (100, 1)] 45.2 45.9 (some 90) none none
    (by norm_num [rat_trunc])
    (by norm_num [crit_clamp])

end Lact
